import Mathlib

/-!
# speedtest-agent

A shallow embedding of `main.go`: the configuration loader `loadConfig`, the
authenticated HTTP handler `App.speedTestHandler` and the bootstrap `main`,
together with the pieces of the Go standard library they call
(`strings.Split`, `http.Error`, the JSON encoding of `AgentResponse`, and
`float64` division).

Everything the program obtains from outside (the file system, the JSON
decoder, the logger, the `speedtest` subprocess) is passed in as an explicit
environment, and everything it does to the outside (the HTTP response, the
subprocesses it starts, the log lines) is returned as explicit state.
-/

set_option autoImplicit false

namespace SpeedtestAgent

/-! ## Go strings: `strings.Index`, `strings.Count`, `strings.Split`

A Go string is a sequence of bytes, a `String` here a sequence of characters.
The functions below scan for a separator and cut at its occurrences; for
UTF-8 text and an ASCII separator such as `"Bearer "` the pieces are the same
whether the scan runs over bytes or over characters. -/

namespace strings

/-- Position of the first occurrence of `sep` in `s`, the result of
`strings.Index(s, sep)`; `none` stands for Go's `-1`. -/
def indexChars (sep : List Char) : List Char → Option Nat
  | [] => if sep.isEmpty then some 0 else none
  | c :: cs =>
    if sep.isPrefixOf (c :: cs) then some 0
    else (indexChars sep cs).map (· + 1)

/-- The loop of `strings.Count` for a non-empty `substr`:
`for { i := Index(s, substr); if i == -1 { return n }; n++; s = s[i+len(substr):] }`.
Every round removes at least one character, so `len(s) + 1` rounds of fuel
are never used up. -/
def countLoop (sep : List Char) : Nat → List Char → Nat → Nat
  | 0, _, n => n
  | fuel + 1, s, n =>
    match indexChars sep s with
    | none => n
    | some i => countLoop sep fuel (s.drop (i + sep.length)) (n + 1)

/-- The loop of `strings.genSplit` with `sepSave = 0`; `k` is `n - i`, the
number of rounds left:
`for i < n { m := Index(s, sep); if m < 0 { break }; a[i] = s[:m]; s = s[m+len(sep):]; i++ }`
followed by `a[i] = s; return a[:i+1]`. -/
def splitLoop (sep : List Char) : Nat → List Char → List (List Char)
  | 0, s => [s]
  | k + 1, s =>
    match indexChars sep s with
    | none => [s]
    | some m => s.take m :: splitLoop sep k (s.drop (m + sep.length))

/-- Go's `strings.Count(s, substr)`: the number of non-overlapping instances
of `substr` in `s`, and one more than the number of characters of `s` when
`substr` is empty. -/
def Count (s substr : String) : Nat :=
  if substr.data = [] then s.data.length + 1
  else countLoop substr.data (s.data.length + 1) s.data 0

/-- Go's `strings.Split(s, sep)`, that is `genSplit(s, sep, 0, -1)`: with an
empty `sep` the string is exploded into its characters, otherwise
`n = Count(s, sep) + 1`, capped at `len(s) + 1`, bounds the split loop. -/
def Split (s sep : String) : List String :=
  if sep.data = [] then s.data.map (fun c => String.mk [c])
  else
    let n := min (Count s sep + 1) (s.data.length + 1)
    (splitLoop sep.data (n - 1) s.data).map String.mk

end strings

/-- Number of positions of `s` at which `sep` starts (overlapping occurrences
are all counted). This is the reference notion of "the substring occurs
`n` times", independent of the greedy scan done by `strings.Count`. -/
def occurrencesChars (sep : List Char) : List Char → Nat
  | [] => if sep.isEmpty then 1 else 0
  | c :: cs => (if sep.isPrefixOf (c :: cs) then 1 else 0) + occurrencesChars sep cs

/-- Number of occurrences of the substring `sep` in the string `s`. -/
def occurrences (sep s : String) : Nat := occurrencesChars sep.data s.data

/-! ## `float64` arithmetic

A finite `float64` is represented by the rational number it denotes. The
operations below round their exact result to the nearest value with a 53-bit
significand, ties to even, as IEEE-754 binary64 does; exponents below the
normal range are clamped so that subnormals are rounded on their fixed grid.
Overflow to an infinity is not represented: it needs a magnitude of `2^1024`,
and the handler only converts a machine integer and divides it by `8` and by
`1e6`. -/

/-- Finite `float64` values, as the rationals they denote. -/
abbrev Float64 := ℚ

/-- Nearest integer to `q`, a tie going to the even neighbour. -/
def roundHalfEven (q : ℚ) : ℤ :=
  let f := ⌊q⌋
  let r := q - f
  if r < 1 / 2 then f
  else if 1 / 2 < r then f + 1
  else if f % 2 = 0 then f else f + 1

namespace Float64

/-- Binary64 rounding of an exact result `q` (round to nearest, ties to
even): with `e` the binary exponent of `q`, not below `-1022`, the result is
the multiple of `2^(e-52)` nearest to `q`. -/
def round (q : ℚ) : Float64 :=
  if q = 0 then 0
  else
    let e := max (Int.log 2 |q|) (-1022)
    let ulp : ℚ := 2 ^ (e - 52)
    roundHalfEven (q / ulp) * ulp

/-- The conversion `float64(n)` of a Go `int`. -/
def ofInt (n : Int) : Float64 := round n

/-- The quotient `a / b` of two `float64` values, `b` non-zero. -/
def div (a b : Float64) : Float64 := round (a / b)

end Float64

/-! ## Structs of `main.go` -/

/-- Go's `error` interface, represented by the text its `Error()` method
returns. A nil error is `none : Option GoError`. -/
structure GoError where
  Error : String
  deriving DecidableEq, Repr

/-- AgentConfig holds the configuration loaded from a JSON file. -/
structure AgentConfig where
  AuthToken : String
  Port : Int
  deriving DecidableEq, Repr

/-- The `ping` member of the tool's report. -/
structure PingResult where
  Jitter : Float64 := 0
  Latency : Float64 := 0
  deriving DecidableEq

/-- The `download` and the `upload` member of the tool's report. -/
structure TransferResult where
  Bandwidth : Int := 0
  deriving DecidableEq

/-- The `server` member of the tool's report. -/
structure ServerResult where
  Host : String := ""
  Country : String := ""
  deriving DecidableEq

/-- SpeedtestCliOutput matches the structure of `speedtest-cli --format=json`.
Go's field `Type` is spelled `Type_` here, and the `time.Time` of `Timestamp`
is kept as its text. -/
structure SpeedtestCliOutput where
  Type_ : String := ""
  Timestamp : String := ""
  Ping : PingResult := {}
  Download : TransferResult := {}
  Upload : TransferResult := {}
  Server : ServerResult := {}
  deriving DecidableEq

/-- AgentResponse is the simplified structure returned to the main app. The
defaults are Go's zero values, so `{ Error := msg }` is the composite literal
`AgentResponse{Error: msg}`. -/
structure AgentResponse where
  DownloadSpeedMBS : Float64 := 0
  UploadSpeedMBS : Float64 := 0
  LatencyMs : Float64 := 0
  ServerCountry : String := ""
  ServerHost : String := ""
  Error : String := ""
  deriving DecidableEq

/-- App holds application-wide state, like the auth token. -/
structure App where
  authToken : String
  deriving DecidableEq, Repr

/-! ## JSON encoding of `AgentResponse` -/

/-- The JSON values an encoded `AgentResponse` contains. -/
inductive JSONValue where
  | number (x : Float64)
  | string (s : String)
  deriving DecidableEq

/-- A JSON object as `encoding/json` emits it for a struct: the members in
field order, each under the name given by the field's tag. -/
abbrev JSONObject := List (String × JSONValue)

/-- The object `encoding/json` produces for an `AgentResponse`, following the
struct tags: the five measurement fields are always present, and `error`,
tagged `omitempty`, is left out exactly when it is the empty string. -/
def AgentResponse.marshal (r : AgentResponse) : JSONObject :=
  [("download_speed_MB_s", JSONValue.number r.DownloadSpeedMBS),
   ("upload_speed_MB_s", JSONValue.number r.UploadSpeedMBS),
   ("latency_ms", JSONValue.number r.LatencyMs),
   ("server_country", JSONValue.string r.ServerCountry),
   ("server_host", JSONValue.string r.ServerHost)]
  ++ (if r.Error = "" then [] else [("error", JSONValue.string r.Error)])

/-- The member names of a JSON object, in order. -/
def JSONObject.keys (o : JSONObject) : List String := o.map Prod.fst

/-- The value of the member called `key`, if the object has one. -/
def JSONObject.get (o : JSONObject) (key : String) : Option JSONValue := o.lookup key

/-! ## `net/http`: headers, requests and the response writer -/

namespace http

/-- Go's `http.StatusOK`. -/
def StatusOK : Nat := 200

/-- Go's `http.StatusUnauthorized`. -/
def StatusUnauthorized : Nat := 401

/-- Go's `http.StatusInternalServerError`. -/
def StatusInternalServerError : Nat := 500

/-- An `http.Header`: canonical header names with their values. -/
abbrev Header := List (String × List String)

/-- First value stored under `key`, the empty string when there is none, as
`Header.Get` returns it (the keys used by the handler are already in
canonical form). -/
def Header.Get (h : Header) (key : String) : String :=
  match h.lookup key with
  | some (v :: _) => v
  | _ => ""

/-- Removal of the values stored under `key`, as `Header.Del` does it. -/
def Header.Del (h : Header) (key : String) : Header :=
  h.filter (fun kv => kv.1 != key)

/-- Replacement of the values under `key` by the single `value`, as
`Header.Set` does it. -/
def Header.Set (h : Header) (key value : String) : Header :=
  (key, [value]) :: Header.Del h key

/-- The part of an `http.Request` the handler reads. -/
structure Request where
  Header : Header

/-- One write to the response body. -/
inductive Chunk where
  /-- Plain bytes. -/
  | text (s : String)
  /-- One JSON document followed by a newline, as `Encoder.Encode` writes it. -/
  | json (o : JSONObject)
  deriving DecidableEq

/-- The state of an `http.ResponseWriter`: the header map the handler can
still edit, the status line with the headers as they were sent (none until
`WriteHeader` or the first `Write`), and the body written so far. -/
structure ResponseWriter where
  header : Header := []
  sent : Option (Nat × Header) := none
  body : List Chunk := []

/-- The status code sent, if any. -/
def ResponseWriter.status (w : ResponseWriter) : Option Nat := w.sent.map Prod.fst

/-- The value of a header as it was sent. -/
def ResponseWriter.sentHeader (w : ResponseWriter) (key : String) : String :=
  match w.sent with
  | some (_, h) => Header.Get h key
  | none => ""

/-- Edit of the header map by `w.Header().Set(key, value)`. -/
def ResponseWriter.SetHeader (w : ResponseWriter) (key value : String) : ResponseWriter :=
  { w with header := Header.Set w.header key value }

/-- Edit of the header map by `w.Header().Del(key)`. -/
def ResponseWriter.DelHeader (w : ResponseWriter) (key : String) : ResponseWriter :=
  { w with header := Header.Del w.header key }

/-- The response writer a handler is given for a new request: nothing set,
nothing sent, nothing written. -/
def newResponseWriter : ResponseWriter := {}

/-- Sends the status line and the current headers, as `w.WriteHeader(code)`
does; a second call changes nothing. -/
def ResponseWriter.WriteHeader (w : ResponseWriter) (code : Nat) : ResponseWriter :=
  match w.sent with
  | some _ => w
  | none => { w with sent := some (code, w.header) }

/-- Appends to the body, as `w.Write` does; the first write sends status 200
if no status has been sent yet. -/
def ResponseWriter.Write (w : ResponseWriter) (c : Chunk) : ResponseWriter :=
  let w1 := ResponseWriter.WriteHeader w StatusOK
  { w1 with body := w1.body ++ [c] }

/-- Go's `http.Error(w, error, code)`: a plain-text reply holding the message
and a newline. -/
def Error (w : ResponseWriter) (error : String) (code : Nat) : ResponseWriter :=
  let w1 := ResponseWriter.DelHeader w "Content-Length"
  let w2 := ResponseWriter.SetHeader w1 "Content-Type" "text/plain; charset=utf-8"
  let w3 := ResponseWriter.SetHeader w2 "X-Content-Type-Options" "nosniff"
  let w4 := ResponseWriter.WriteHeader w3 code
  ResponseWriter.Write w4 (Chunk.text (error ++ "\n"))

end http

/-- The call `json.NewEncoder(w).Encode(response)`. -/
def encodeResponse (w : http.ResponseWriter) (response : AgentResponse) : http.ResponseWriter :=
  http.ResponseWriter.Write w (http.Chunk.json response.marshal)

/-! ## The handler -/

/-- What the handler gets from outside the program. -/
structure HandlerEnv where
  /-- The result `(output, err)` of `cmd.CombinedOutput()` for the given
  command line: `err` is non-nil when the program cannot be started or exits
  with a non-zero status. -/
  combinedOutput : List String → String × Option GoError
  /-- The result of `json.Unmarshal(output, &cliResult)`. -/
  unmarshal : String → Except GoError SpeedtestCliOutput

/-- The lines the handler logs. -/
inductive LogLine where
  | authenticated
  | commandFailed (err : GoError) (output : String)
  | parseFailed (err : GoError)
  | success (downloadMBS uploadMBS : Float64)
  deriving DecidableEq

/-- What one run of the handler did: the response, the subprocesses it
started (each by its command line) and the lines it logged. -/
structure Handled where
  w : http.ResponseWriter
  commands : List (List String) := []
  log : List LogLine := []

/-- The command line of `exec.Command("speedtest", "--format=json", "--accept-license", "--accept-gdpr")`. -/
def speedtestCommand : List String :=
  ["speedtest", "--format=json", "--accept-license", "--accept-gdpr"]

/-- Conversion of a bandwidth to MB/s as lines 123 and 124 of `main.go` do it:
`float64(bandwidth) / 8 / 1e6`. -/
def bandwidthToMBS (bandwidth : Int) : Float64 :=
  Float64.div (Float64.div (Float64.ofInt bandwidth) 8) 1000000

/-- The HTTP handler `(app *App) speedTestHandler(w, r)`. -/
def App.speedTestHandler (app : App) (env : HandlerEnv)
    (w : http.ResponseWriter) (r : http.Request) : Handled :=
  -- 1. Authenticate the request
  let authHeader := http.Header.Get r.Header "Authorization"
  if authHeader = "" then
    { w := http.Error w "Authorization header is required" http.StatusUnauthorized }
  else
    let splitToken := strings.Split authHeader "Bearer "
    if splitToken.length ≠ 2 then
      { w := http.Error w "Invalid Authorization header format" http.StatusUnauthorized }
    else if splitToken.getD 1 "" ≠ app.authToken then
      { w := http.Error w "Invalid token" http.StatusUnauthorized }
    else
      -- 2. Run the speed test (if authenticated)
      let result := env.combinedOutput speedtestCommand
      let output := result.1
      let w1 := http.ResponseWriter.SetHeader w "Content-Type" "application/json"
      match result.2 with
      | some err =>
        let w2 := http.ResponseWriter.WriteHeader w1 http.StatusInternalServerError
        { w := encodeResponse w2 { Error := "Failed to execute speedtest-cli: " ++ err.Error }
          commands := [speedtestCommand]
          log := [LogLine.authenticated, LogLine.commandFailed err output] }
      | none =>
        match env.unmarshal output with
        | Except.error err =>
          let w2 := http.ResponseWriter.WriteHeader w1 http.StatusInternalServerError
          { w := encodeResponse w2 { Error := "Failed to parse speedtest-cli output: " ++ err.Error }
            commands := [speedtestCommand]
            log := [LogLine.authenticated, LogLine.parseFailed err] }
        | Except.ok cliResult =>
          -- 3. Format and return the response
          let downloadMBS := bandwidthToMBS cliResult.Download.Bandwidth
          let uploadMBS := bandwidthToMBS cliResult.Upload.Bandwidth
          let response : AgentResponse :=
            { DownloadSpeedMBS := downloadMBS
              UploadSpeedMBS := uploadMBS
              LatencyMs := cliResult.Ping.Latency
              ServerCountry := cliResult.Server.Country
              ServerHost := cliResult.Server.Host }
          { w := encodeResponse w1 response
            commands := [speedtestCommand]
            log := [LogLine.authenticated, LogLine.success downloadMBS uploadMBS] }

/-- The header format the specification names: the string `Bearer ` followed
by exactly one token segment, a non-empty string without a space. -/
def isBearerSingleToken (authHeader : String) : Bool :=
  ("Bearer ".data).isPrefixOf authHeader.data
    && !(authHeader.data.drop 7).isEmpty
    && !(authHeader.data.drop 7).contains ' '

/-! ## Configuration and bootstrap -/

/-- What `loadConfig` and `main` get from outside the program. -/
structure StartupEnv where
  /-- The value of the `-config` flag, when the command line gives one. -/
  configFlag : Option String := none
  /-- The call `os.Open(path)`: the file, given by its content, or an error. -/
  openFile : String → Except GoError String
  /-- The call `json.NewDecoder(file).Decode(&config)` on a zero `AgentConfig`. -/
  decode : String → Except GoError AgentConfig
  /-- The call `log.Output(1, s)`: it returns the error of writing the line to
  the logger's output, nil when the line was written. -/
  logOutput : String → Option GoError
  /-- The call `http.ListenAndServe(addr, nil)`: it serves until it fails. -/
  listenAndServe : String → Option GoError

/-- The function `loadConfig(path)`; the pair is Go's `(*AgentConfig, error)`,
with `none` for a nil pointer and for a nil error. -/
def loadConfig (env : StartupEnv) (path : String) : Option AgentConfig × Option GoError :=
  match env.openFile path with
  | Except.error err => (none, some err)
  | Except.ok file =>
    match env.decode file with
    | Except.error err => (none, some err)
    | Except.ok config =>
      if config.AuthToken = "" then
        (none, env.logOutput "auth_token is missing from config file")
      else
        (some config, none)

/-- How `main` ends, or what it is doing when it does not end. -/
inductive Startup where
  /-- The exit by `log.Fatalf("Failed to load config file at %s: %v", path, err)`. -/
  | configFatal (path : String) (err : GoError)
  /-- The run-time panic of reading `config.AuthToken` through a nil `config`. -/
  | nilDereference
  /-- The exit by `log.Fatalf("Failed to start server: %v", err)` after
  `ListenAndServe` returned. -/
  | serverFatal (app : App) (addr : String) (err : GoError)
  /-- The server listens on `addr` and serves `/speedtest` with the handler of `app`. -/
  | serving (app : App) (addr : String)
  deriving DecidableEq

/-- The function `main`. -/
def main (env : StartupEnv) : Startup :=
  let configPath := env.configFlag.getD "/etc/speedtest-agent/config.json"
  match loadConfig env configPath with
  | (_, some err) => Startup.configFatal configPath err
  | (none, none) => Startup.nilDereference
  | (some config, none) =>
    let app : App := { authToken := config.AuthToken }
    let addr := ":" ++ toString config.Port
    match env.listenAndServe addr with
    | some err => Startup.serverFatal app addr err
    | none => Startup.serving app addr

/-! ## Concrete inputs -/

/-- A request whose only header is `Authorization: value`. -/
def requestWithAuthorization (value : String) : http.Request :=
  { Header := [("Authorization", [value])] }

/-- An environment in which `speedtest` exits with status 1 without output. -/
def toolFails : HandlerEnv :=
  { combinedOutput := fun _ => ("", some { Error := "exit status 1" })
    unmarshal := fun _ => Except.error { Error := "unexpected end of JSON input" } }

/-- An environment in which `speedtest` exits with status 0 but prints
nothing, so that its output does not parse. -/
def toolPrintsNothing : HandlerEnv :=
  { combinedOutput := fun _ => ("", none)
    unmarshal := fun _ => Except.error { Error := "unexpected end of JSON input" } }

/-- The tool output of the specification's example. -/
def sampleOutput : String :=
  "\x7b\"download\":\x7b\"bandwidth\":80000000\x7d,\"upload\":\x7b\"bandwidth\":8000000\x7d," ++
  "\"ping\":\x7b\"latency\":15.5\x7d,\"server\":\x7b\"host\":\"h\",\"country\":\"US\"\x7d\x7d"

/-- The report `sampleOutput` parses to. -/
def sampleReport : SpeedtestCliOutput :=
  { Ping := { Latency := 31 / 2 }
    Download := { Bandwidth := 80000000 }
    Upload := { Bandwidth := 8000000 }
    Server := { Host := "h", Country := "US" } }

/-- An environment in which `speedtest` succeeds and prints `sampleOutput`. -/
def toolSucceeds : HandlerEnv :=
  { combinedOutput := fun _ => (sampleOutput, none)
    unmarshal := fun s =>
      if s = sampleOutput then Except.ok sampleReport
      else Except.error { Error := "unexpected end of JSON input" } }

/-- A start-up environment with a readable configuration file at the default
path whose content decodes to `config`; the logger and the listener work. -/
def startupWith (config : AgentConfig) : StartupEnv :=
  { openFile := fun path =>
      if path = "/etc/speedtest-agent/config.json" then Except.ok "config"
      else Except.error { Error := "open: no such file or directory" }
    decode := fun _ => Except.ok config
    logOutput := fun _ => none
    listenAndServe := fun _ => none }

/-! ## Lemmas on `strings.Index`, `strings.Count` and `strings.Split` -/

open strings

theorem indexChars_none_iff (sep : List Char) (s : List Char) :
    indexChars sep s = none ↔ occurrencesChars sep s = 0 := by
  induction s with
  | nil => by_cases h : sep.isEmpty <;> simp [indexChars, occurrencesChars, h]
  | cons c cs ih =>
    by_cases h : sep.isPrefixOf (c :: cs) <;> simp [indexChars, occurrencesChars, h, ih]

theorem indexChars_some (sep : List Char) (s : List Char) (m : Nat)
    (h : indexChars sep s = some m) :
    s = s.take m ++ sep ++ s.drop (m + sep.length) ∧
      occurrencesChars sep s = occurrencesChars sep (s.drop m) := by
  induction s generalizing m with
  | nil =>
    by_cases hs : sep.isEmpty
    · simp [indexChars, hs] at h
      subst h
      simp [List.isEmpty_iff] at hs
      simp [hs]
    · simp [indexChars, hs] at h
  | cons c cs ih =>
    by_cases hp : sep.isPrefixOf (c :: cs)
    · simp [indexChars, hp] at h
      subst h
      have hp2 : sep <+: c :: cs := List.isPrefixOf_iff_prefix.mp hp
      obtain ⟨q, hq⟩ := hp2
      constructor
      · rw [← hq]; simp
      · simp
    · simp [indexChars, hp] at h
      obtain ⟨a, ha, rfl⟩ := h
      obtain ⟨h1, h2⟩ := ih a ha
      constructor
      · simp only [List.take_succ_cons, List.cons_append, List.cons.injEq, true_and]
        rw [show a + 1 + sep.length = (a + sep.length) + 1 by omega, List.drop_succ_cons]
        exact h1
      · simp [occurrencesChars, hp, h2]

theorem indexChars_some_le (sep s : List Char) (m : Nat)
    (h : indexChars sep s = some m) : m + sep.length ≤ s.length := by
  induction s generalizing m with
  | nil =>
    by_cases hs : sep.isEmpty
    · simp [indexChars, hs] at h
      subst h
      simp [List.isEmpty_iff] at hs
      simp [hs]
    · simp [indexChars, hs] at h
  | cons c cs ih =>
    by_cases hp : sep.isPrefixOf (c :: cs)
    · simp [indexChars, hp] at h
      subst h
      have hp2 : sep <+: c :: cs := List.isPrefixOf_iff_prefix.mp hp
      simpa using hp2.length_le
    · simp [indexChars, hp] at h
      obtain ⟨a, ha, rfl⟩ := h
      have := ih a ha
      simp only [List.length_cons]
      omega

theorem countLoop_ge (sep : List Char) (fuel : Nat) (s : List Char) (n : Nat) :
    n ≤ countLoop sep fuel s n := by
  induction fuel generalizing s n with
  | zero => simp [countLoop]
  | succ k ih =>
    unfold countLoop
    split
    · exact le_refl _
    · exact le_trans (Nat.le_succ n) (ih _ _)

theorem splitLoop_ne_nil (sep : List Char) (k : Nat) (s : List Char) :
    1 ≤ (splitLoop sep k s).length := by
  cases k with
  | zero => simp [splitLoop]
  | succ k =>
    unfold splitLoop
    split <;> simp

theorem occurrencesChars_append_ge (sep p s : List Char) :
    occurrencesChars sep s ≤ occurrencesChars sep (p ++ s) := by
  induction p with
  | nil => simp
  | cons c p ih =>
    simp only [List.cons_append, occurrencesChars, List.append_eq]
    omega

theorem indexChars_append_of_occurrences_eq (sep p s : List Char)
    (hpre : sep.isPrefixOf s = true)
    (h : occurrencesChars sep (p ++ s) = occurrencesChars sep s) :
    indexChars sep (p ++ s) = some p.length := by
  induction p with
  | nil =>
    cases s with
    | nil =>
      cases sep with
      | nil => simp [indexChars]
      | cons a as => simp at hpre
    | cons c cs => simp [indexChars, hpre]
  | cons c p ih =>
    simp only [List.cons_append, occurrencesChars, List.append_eq] at h
    have hge := occurrencesChars_append_ge sep p s
    by_cases hp : sep.isPrefixOf (c :: (p ++ s)) = true
    · simp [hp] at h
      omega
    · simp [hp] at h
      simp [indexChars, hp, ih h]

theorem occurrencesChars_bearer_append (t : List Char) :
    occurrencesChars ['B', 'e', 'a', 'r', 'e', 'r', ' '] (['B', 'e', 'a', 'r', 'e', 'r', ' '] ++ t)
      = 1 + occurrencesChars ['B', 'e', 'a', 'r', 'e', 'r', ' '] t := by
  simp [occurrencesChars, List.isPrefixOf]

theorem bearer_isPrefixOf_append (q t : List Char) (hq : q ≠ [])
    (h : List.isPrefixOf ['B', 'e', 'a', 'r', 'e', 'r', ' ']
      (q ++ (['B', 'e', 'a', 'r', 'e', 'r', ' '] ++ t)) = true) :
    List.isPrefixOf ['B', 'e', 'a', 'r', 'e', 'r', ' '] q = true := by
  rcases q with _ | ⟨a1, _ | ⟨a2, _ | ⟨a3, _ | ⟨a4, _ | ⟨a5, _ | ⟨a6, _ | ⟨a7, q⟩⟩⟩⟩⟩⟩⟩
  · exact absurd rfl hq
  all_goals simp [List.isPrefixOf] at h ⊢
  exact h

theorem countLoop_succ_some (sep : List Char) (fuel : Nat) (s : List Char) (n i : Nat)
    (h : indexChars sep s = some i) :
    countLoop sep (fuel + 1) s n = countLoop sep fuel (s.drop (i + sep.length)) (n + 1) := by
  simp only [countLoop, h]

theorem splitLoop_succ_some (sep : List Char) (k : Nat) (s : List Char) (m : Nat)
    (h : indexChars sep s = some m) :
    splitLoop sep (k + 1) s = s.take m :: splitLoop sep k (s.drop (m + sep.length)) := by
  simp only [splitLoop, h]

/-- The list-level body of `strings.Split` for a non-empty separator. -/
theorem splitLoop_two_iff (sep s t : List Char) (hsep : sep ≠ []) :
    ((splitLoop sep (min (countLoop sep (s.length + 1) s 0 + 1) (s.length + 1) - 1) s).length = 2 ∧
      (splitLoop sep (min (countLoop sep (s.length + 1) s 0 + 1) (s.length + 1) - 1) s).getD 1 [] = t)
    ↔ ∃ m, indexChars sep s = some m ∧ indexChars sep (s.drop (m + sep.length)) = none ∧
        s.drop (m + sep.length) = t := by
  have hlen : 1 ≤ sep.length := List.length_pos.mpr hsep
  cases h0 : indexChars sep s with
  | none =>
    simp [countLoop, h0, splitLoop]
  | some m =>
    have hm := indexChars_some_le sep s m h0
    obtain ⟨l, hl⟩ : ∃ l, s.length = l + 1 := ⟨s.length - 1, by omega⟩
    cases h1 : indexChars sep (s.drop (m + sep.length)) with
    | none =>
      simp [countLoop, h0, h1, hl, splitLoop]
    | some i =>
      have hi := indexChars_some_le sep _ i h1
      simp only [List.length_drop] at hi
      obtain ⟨l2, hl2⟩ : ∃ l2, l = l2 + 1 := ⟨l - 1, by omega⟩
      have hc : 2 ≤ countLoop sep (s.length + 1) s 0 := by
        rw [countLoop_succ_some sep _ s 0 m h0, hl, countLoop_succ_some sep _ _ _ i h1]
        exact countLoop_ge _ _ _ _
      obtain ⟨k, hk⟩ : ∃ k, min (countLoop sep (s.length + 1) s 0 + 1) (s.length + 1) - 1 = k + 2 :=
        ⟨min (countLoop sep (s.length + 1) s 0 + 1) (s.length + 1) - 1 - 2, by omega⟩
      rw [hk]
      have h3 := splitLoop_ne_nil sep k (List.drop (i + sep.length) (List.drop (m + sep.length) s))
      rw [splitLoop_succ_some sep _ s m h0, splitLoop_succ_some sep _ _ i h1]
      simp only [List.length_cons]
      constructor
      · rintro ⟨h, _⟩
        omega
      · rintro ⟨m2, hm2, hn, _⟩
        simp at hm2
        subst hm2
        simp [h1] at hn

/-- With more fuel than `s` has characters, one more unit of fuel does not
change the count: the fuel of `strings.Count` never runs out. -/
theorem countLoop_fuel (sep : List Char) (hsep : sep ≠ []) (fuel : Nat) (s : List Char) (n : Nat)
    (h : s.length < fuel) : countLoop sep (fuel + 1) s n = countLoop sep fuel s n := by
  have hlen : 1 ≤ sep.length := List.length_pos.mpr hsep
  induction fuel generalizing s n with
  | zero => omega
  | succ k ih =>
    cases hi : indexChars sep s with
    | none => simp only [countLoop, hi]
    | some i =>
      have hle := indexChars_some_le sep s i hi
      rw [countLoop_succ_some sep _ s n i hi, countLoop_succ_some sep _ s n i hi]
      exact ih _ _ (by simp only [List.length_drop]; omega)

theorem bearer_index_iff (s t : List Char) :
    (∃ m, indexChars ['B', 'e', 'a', 'r', 'e', 'r', ' '] s = some m ∧
        indexChars ['B', 'e', 'a', 'r', 'e', 'r', ' '] (s.drop (m + 7)) = none ∧
        s.drop (m + 7) = t)
    ↔ (∃ p, s = p ++ ['B', 'e', 'a', 'r', 'e', 'r', ' '] ++ t) ∧
        occurrencesChars ['B', 'e', 'a', 'r', 'e', 'r', ' '] s = 1 := by
  constructor
  · rintro ⟨m, h0, h1, rfl⟩
    obtain ⟨hs, hocc⟩ := indexChars_some _ s m h0
    have hm := indexChars_some_le _ s m h0
    simp only [List.length_cons, List.length_nil] at hm hs
    refine ⟨⟨s.take m, hs⟩, ?_⟩
    have hd : s.drop m = ['B', 'e', 'a', 'r', 'e', 'r', ' '] ++ s.drop (m + 7) := by
      have := congrArg (List.drop m) hs
      rw [List.append_assoc, List.drop_left' (by simp; omega)] at this
      exact this
    rw [hocc, hd, occurrencesChars_bearer_append, (indexChars_none_iff _ _).mp h1]
  · rintro ⟨⟨p, rfl⟩, hocc⟩
    rw [List.append_assoc] at hocc ⊢
    have hge := occurrencesChars_append_ge ['B', 'e', 'a', 'r', 'e', 'r', ' '] p
      (['B', 'e', 'a', 'r', 'e', 'r', ' '] ++ t)
    rw [occurrencesChars_bearer_append] at hge
    have ht : occurrencesChars ['B', 'e', 'a', 'r', 'e', 'r', ' '] t = 0 := by omega
    have hidx := indexChars_append_of_occurrences_eq ['B', 'e', 'a', 'r', 'e', 'r', ' '] p
      (['B', 'e', 'a', 'r', 'e', 'r', ' '] ++ t) (by simp [List.isPrefixOf])
      (by rw [occurrencesChars_bearer_append]; omega)
    have hdrop : List.drop (p.length + 7) (p ++ (['B', 'e', 'a', 'r', 'e', 'r', ' '] ++ t)) = t := by
      rw [← List.append_assoc, List.drop_left' (by simp)]
    refine ⟨p.length, hidx, ?_, hdrop⟩
    rw [hdrop]
    exact (indexChars_none_iff _ _).mpr ht

theorem split_bearer_index_iff (H t : String) :
    ((Split H "Bearer ").length = 2 ∧ (Split H "Bearer ").getD 1 "" = t)
    ↔ ∃ m, indexChars ['B', 'e', 'a', 'r', 'e', 'r', ' '] H.data = some m ∧
        indexChars ['B', 'e', 'a', 'r', 'e', 'r', ' '] (H.data.drop (m + 7)) = none ∧
        H.data.drop (m + 7) = t.data := by
  have hsep : ("Bearer " : String).data = ['B', 'e', 'a', 'r', 'e', 'r', ' '] := rfl
  have hne : (['B', 'e', 'a', 'r', 'e', 'r', ' '] : List Char) ≠ [] := by simp
  have key := splitLoop_two_iff ['B', 'e', 'a', 'r', 'e', 'r', ' '] H.data t.data hne
  simp only [List.length_cons, List.length_nil] at key
  simp only [Split, Count, hsep, hne, if_false, List.length_map]
  have hget : ∀ l : List (List Char), l.length = 2 →
      (((l.map String.mk).getD 1 "" = t) ↔ (l.getD 1 [] = t.data)) := by
    intro l hl
    rcases l with _ | ⟨a, _ | ⟨b, _ | ⟨c, l⟩⟩⟩ <;> simp at hl
    simp only [List.map, List.getD_cons_succ, List.getD_cons_zero]
    constructor
    · rintro rfl; rfl
    · intro h; rw [h]
  rw [← key]
  constructor
  · rintro ⟨h1, h2⟩
    exact ⟨h1, (hget _ h1).mp h2⟩
  · rintro ⟨h1, h2⟩
    exact ⟨h1, (hget _ h1).mpr h2⟩

theorem exists_bearer_append_iff (H t : String) :
    (∃ p : String, H = p ++ "Bearer " ++ t) ↔
      ∃ p : List Char, H.data = p ++ ['B', 'e', 'a', 'r', 'e', 'r', ' '] ++ t.data := by
  have hsep : ("Bearer " : String).data = ['B', 'e', 'a', 'r', 'e', 'r', ' '] := rfl
  constructor
  · rintro ⟨p, rfl⟩
    exact ⟨p.data, by simp [String.data_append, hsep]⟩
  · rintro ⟨p, hp⟩
    refine ⟨String.mk p, ?_⟩
    apply String.ext
    simp [String.data_append, hsep, hp]

theorem split_bearer_iff (H t : String) :
    ((Split H "Bearer ").length = 2 ∧ (Split H "Bearer ").getD 1 "" = t)
    ↔ (∃ p : String, H = p ++ "Bearer " ++ t) ∧ occurrences "Bearer " H = 1 := by
  rw [split_bearer_index_iff, exists_bearer_append_iff, bearer_index_iff]
  rfl

theorem occurrencesChars_free_front (p t : List Char)
    (hp : occurrencesChars ['B', 'e', 'a', 'r', 'e', 'r', ' '] p = 0) :
    occurrencesChars ['B', 'e', 'a', 'r', 'e', 'r', ' '] (p ++ (['B', 'e', 'a', 'r', 'e', 'r', ' '] ++ t))
      = occurrencesChars ['B', 'e', 'a', 'r', 'e', 'r', ' '] (['B', 'e', 'a', 'r', 'e', 'r', ' '] ++ t) := by
  induction p with
  | nil => rfl
  | cons c p ih =>
    simp only [occurrencesChars, Nat.add_eq_zero] at hp
    have hc : List.isPrefixOf ['B', 'e', 'a', 'r', 'e', 'r', ' ']
        ((c :: p) ++ (['B', 'e', 'a', 'r', 'e', 'r', ' '] ++ t)) ≠ true := by
      intro hcontra
      have := bearer_isPrefixOf_append (c :: p) t (by simp) hcontra
      rw [this] at hp
      simp at hp
    rw [List.cons_append] at hc ⊢
    rw [occurrencesChars, if_neg hc, ih hp.2, Nat.zero_add]

theorem intercalate_splitLoop (sep : List Char) (k : Nat) (s : List Char) :
    List.intercalate sep (splitLoop sep k s) = s := by
  induction k generalizing s with
  | zero => simp [splitLoop, List.intercalate]
  | succ k ih =>
    cases h : indexChars sep s with
    | none => simp [splitLoop, h, List.intercalate]
    | some m =>
      rw [splitLoop_succ_some sep k s m h]
      have hne := splitLoop_ne_nil sep k (s.drop (m + sep.length))
      have hs := (indexChars_some sep s m h).1
      cases hl : splitLoop sep k (s.drop (m + sep.length)) with
      | nil => rw [hl] at hne; simp at hne
      | cons a l =>
        have := ih (s.drop (m + sep.length))
        rw [hl] at this
        simp only [List.intercalate, List.intersperse, List.flatten_cons] at this ⊢
        rw [this, ← List.append_assoc]
        exact hs.symm

/-! ## Lemmas on the handler -/

theorem error_fresh (msg : String) (code : Nat) :
    (http.Error http.newResponseWriter msg code).status = some code ∧
    (http.Error http.newResponseWriter msg code).sentHeader "Content-Type"
      = "text/plain; charset=utf-8" ∧
    (http.Error http.newResponseWriter msg code).body = [http.Chunk.text (msg ++ "\n")] :=
  ⟨rfl, rfl, rfl⟩

theorem handler_rejects (app : App) (env : HandlerEnv) (w : http.ResponseWriter) (r : http.Request)
    (h : ¬ (http.Header.Get r.Header "Authorization" ≠ "" ∧
      (Split (http.Header.Get r.Header "Authorization") "Bearer ").length = 2 ∧
      (Split (http.Header.Get r.Header "Authorization") "Bearer ").getD 1 "" = app.authToken)) :
    ∃ msg, msg ∈ ["Authorization header is required", "Invalid Authorization header format",
        "Invalid token"] ∧
      app.speedTestHandler env w r = { w := http.Error w msg http.StatusUnauthorized } := by
  unfold App.speedTestHandler
  simp only []
  split_ifs with h1 h2 h3
  · exact ⟨"Authorization header is required", by simp, rfl⟩
  · exact ⟨"Invalid Authorization header format", by simp, rfl⟩
  · exact ⟨"Invalid token", by simp, rfl⟩
  · exact absurd ⟨h1, not_not.mp h2, not_not.mp h3⟩ h

theorem handler_accepts (app : App) (env : HandlerEnv) (w : http.ResponseWriter) (r : http.Request)
    (h : http.Header.Get r.Header "Authorization" ≠ "" ∧
      (Split (http.Header.Get r.Header "Authorization") "Bearer ").length = 2 ∧
      (Split (http.Header.Get r.Header "Authorization") "Bearer ").getD 1 "" = app.authToken) :
    (app.speedTestHandler env w r).commands = [speedtestCommand] := by
  obtain ⟨h1, h2, h3⟩ := h
  unfold App.speedTestHandler
  simp only []
  rw [if_neg h1, if_neg (not_not.mpr h2), if_neg (not_not.mpr h3)]
  cases h4 : (env.combinedOutput speedtestCommand).2 with
  | some err => rfl
  | none =>
    cases h5 : env.unmarshal (env.combinedOutput speedtestCommand).1 with
    | error err => rfl
    | ok v => rfl

theorem accept_of_bearer (t H : String)
    (h : (∃ p : String, H = p ++ "Bearer " ++ t) ∧ occurrences "Bearer " H = 1) :
    H ≠ "" ∧ (Split H "Bearer ").length = 2 ∧ (Split H "Bearer ").getD 1 "" = t := by
  refine ⟨?_, (split_bearer_iff _ _).mpr h⟩
  intro h0
  rw [h0] at h
  exact absurd h.2 (by decide)

theorem handler_of_accept (app : App) (env : HandlerEnv) (w : http.ResponseWriter)
    (r : http.Request)
    (h : http.Header.Get r.Header "Authorization" ≠ "" ∧
      (Split (http.Header.Get r.Header "Authorization") "Bearer ").length = 2 ∧
      (Split (http.Header.Get r.Header "Authorization") "Bearer ").getD 1 "" = app.authToken) :
    app.speedTestHandler env w r =
      match (env.combinedOutput speedtestCommand).2 with
      | some err =>
        { w := encodeResponse
            (http.ResponseWriter.WriteHeader
              (http.ResponseWriter.SetHeader w "Content-Type" "application/json") 500)
            { Error := "Failed to execute speedtest-cli: " ++ err.Error }
          commands := [speedtestCommand]
          log := [LogLine.authenticated,
            LogLine.commandFailed err (env.combinedOutput speedtestCommand).1] }
      | none =>
        match env.unmarshal (env.combinedOutput speedtestCommand).1 with
        | Except.error err =>
          { w := encodeResponse
              (http.ResponseWriter.WriteHeader
                (http.ResponseWriter.SetHeader w "Content-Type" "application/json") 500)
              { Error := "Failed to parse speedtest-cli output: " ++ err.Error }
            commands := [speedtestCommand]
            log := [LogLine.authenticated, LogLine.parseFailed err] }
        | Except.ok cliResult =>
          { w := encodeResponse (http.ResponseWriter.SetHeader w "Content-Type" "application/json")
              { DownloadSpeedMBS := bandwidthToMBS cliResult.Download.Bandwidth
                UploadSpeedMBS := bandwidthToMBS cliResult.Upload.Bandwidth
                LatencyMs := cliResult.Ping.Latency
                ServerCountry := cliResult.Server.Country
                ServerHost := cliResult.Server.Host }
            commands := [speedtestCommand]
            log := [LogLine.authenticated,
              LogLine.success (bandwidthToMBS cliResult.Download.Bandwidth)
                (bandwidthToMBS cliResult.Upload.Bandwidth)] } := by
  obtain ⟨h1, h2, h3⟩ := h
  unfold App.speedTestHandler
  simp only []
  rw [if_neg h1, if_neg (not_not.mpr h2), if_neg (not_not.mpr h3)]
  rfl

theorem encode_after_status (resp : AgentResponse) (code : Nat) :
    (encodeResponse (http.ResponseWriter.WriteHeader
      (http.ResponseWriter.SetHeader http.newResponseWriter "Content-Type" "application/json")
      code) resp).status = some code ∧
    (encodeResponse (http.ResponseWriter.WriteHeader
      (http.ResponseWriter.SetHeader http.newResponseWriter "Content-Type" "application/json")
      code) resp).sentHeader "Content-Type" = "application/json" ∧
    (encodeResponse (http.ResponseWriter.WriteHeader
      (http.ResponseWriter.SetHeader http.newResponseWriter "Content-Type" "application/json")
      code) resp).body = [http.Chunk.json resp.marshal] :=
  ⟨rfl, rfl, rfl⟩

theorem encode_first_write (resp : AgentResponse) :
    (encodeResponse
      (http.ResponseWriter.SetHeader http.newResponseWriter "Content-Type" "application/json")
      resp).status = some 200 ∧
    (encodeResponse
      (http.ResponseWriter.SetHeader http.newResponseWriter "Content-Type" "application/json")
      resp).sentHeader "Content-Type" = "application/json" ∧
    (encodeResponse
      (http.ResponseWriter.SetHeader http.newResponseWriter "Content-Type" "application/json")
      resp).body = [http.Chunk.json resp.marshal] :=
  ⟨rfl, rfl, rfl⟩

theorem append_ne_empty (a b : String) (ha : a ≠ "") : a ++ b ≠ "" := by
  intro h
  have := congrArg String.data h
  simp [String.data_append] at this
  exact ha (String.ext this.1)

theorem marshal_error (msg : String) (h : msg ≠ "") :
    AgentResponse.marshal { Error := msg } =
      [("download_speed_MB_s", JSONValue.number 0), ("upload_speed_MB_s", JSONValue.number 0),
       ("latency_ms", JSONValue.number 0), ("server_country", JSONValue.string ""),
       ("server_host", JSONValue.string ""), ("error", JSONValue.string msg)] := by
  simp [AgentResponse.marshal, h]

theorem marshal_success (d u l : Float64) (c h : String) :
    AgentResponse.marshal
      { DownloadSpeedMBS := d, UploadSpeedMBS := u, LatencyMs := l, ServerCountry := c,
        ServerHost := h } =
      [("download_speed_MB_s", JSONValue.number d), ("upload_speed_MB_s", JSONValue.number u),
       ("latency_ms", JSONValue.number l), ("server_country", JSONValue.string c),
       ("server_host", JSONValue.string h)] := by
  simp [AgentResponse.marshal]

/-! ## Lemmas on `float64` rounding -/

theorem roundHalfEven_intCast (z : ℤ) : roundHalfEven (z : ℚ) = z := by
  simp [roundHalfEven]

theorem roundHalfEven_eq_of_lt (q : ℚ) (z : ℤ) (h1 : (z : ℚ) - 1 / 2 < q)
    (h2 : q < (z : ℚ) + 1 / 2) : roundHalfEven q = z := by
  unfold roundHalfEven
  simp only []
  rcases le_or_lt (z : ℚ) q with hq | hq
  · have hf : ⌊q⌋ = z := Int.floor_eq_iff.mpr ⟨hq, by linarith⟩
    rw [hf, if_pos (by linarith)]
  · have hf : ⌊q⌋ = z - 1 := Int.floor_eq_iff.mpr ⟨by push_cast; linarith, by push_cast; linarith⟩
    rw [hf, if_neg (by push_cast; linarith), if_pos (by push_cast; linarith)]
    ring

theorem log_two_eq_of_bounds (q : ℚ) (e : ℤ) (hq : 0 < q) (h1 : (2 : ℚ) ^ e ≤ q)
    (h2 : q < (2 : ℚ) ^ (e + 1)) : Int.log 2 q = e := by
  have a1 : e ≤ Int.log 2 q :=
    (Int.zpow_le_iff_le_log (by norm_num) hq).mp (by simpa using h1)
  have a2 : Int.log 2 q < e + 1 :=
    (Int.lt_zpow_iff_log_lt (by norm_num) hq).mp (by simpa using h2)
  omega

/-- Rounding of a value in a known binade. -/
theorem round_eq_of_binade (q : ℚ) (e z : ℤ) (he : -1022 ≤ e) (h1 : (2 : ℚ) ^ e ≤ |q|)
    (h2 : |q| < (2 : ℚ) ^ (e + 1)) (hz : roundHalfEven (q / 2 ^ (e - 52)) = z) :
    Float64.round q = z * 2 ^ (e - 52) := by
  have hpos : 0 < |q| := lt_of_lt_of_le (by positivity) h1
  have hq0 : q ≠ 0 := abs_pos.mp hpos
  have hlog := log_two_eq_of_bounds |q| e hpos h1 h2
  unfold Float64.round
  rw [if_neg hq0]
  simp only [hlog, max_eq_left he, hz]

theorem round_of_repr (m k : ℤ) (hm : |m| < 2 ^ 53) (hk : -1074 ≤ k) :
    Float64.round ((m : ℚ) * 2 ^ k) = (m : ℚ) * 2 ^ k := by
  by_cases hm0 : m = 0
  · simp [hm0, Float64.round]
  have h2k : (0 : ℚ) < 2 ^ k := by positivity
  have hq0 : (m : ℚ) * 2 ^ k ≠ 0 := mul_ne_zero (by exact_mod_cast hm0) (ne_of_gt h2k)
  have hpos : 0 < |(m : ℚ) * 2 ^ k| := abs_pos.mpr hq0
  have hle := Int.zpow_log_le_self (b := 2) (by norm_num) hpos
  have hlt : |(m : ℚ) * 2 ^ k| < (2 : ℚ) ^ (53 + k) := by
    rw [abs_mul, abs_of_pos h2k, zpow_add₀ (by norm_num : (2 : ℚ) ≠ 0)]
    have : |(m : ℚ)| < 2 ^ (53 : ℤ) := by
      have h : ((|m| : ℤ) : ℚ) < ((2 ^ 53 : ℤ) : ℚ) := by exact_mod_cast hm
      rw [Int.cast_abs] at h
      norm_num at h ⊢
      exact h
    exact mul_lt_mul_of_pos_right this h2k
  have he : Int.log 2 |(m : ℚ) * 2 ^ k| < 53 + k := by
    have : ((2 : ℕ) : ℚ) ^ Int.log 2 |(m : ℚ) * 2 ^ k| < (2 : ℚ) ^ (53 + k) := lt_of_le_of_lt hle hlt
    rw [Nat.cast_ofNat] at this
    exact (zpow_lt_zpow_iff_right₀ (by norm_num)).mp this
  unfold Float64.round
  rw [if_neg hq0]
  simp only []
  set e := max (Int.log 2 |(m : ℚ) * 2 ^ k|) (-1022) - 52 with hedef
  have hek : e ≤ k := by
    rcases max_cases (Int.log 2 |(m : ℚ) * 2 ^ k|) (-1022) with ⟨h, _⟩ | ⟨h, _⟩ <;> omega
  clear_value e
  obtain ⟨j, hj⟩ : ∃ j : ℕ, k = e + j := ⟨(k - e).toNat, by omega⟩
  have hk2 : (2 : ℚ) ^ k = 2 ^ e * 2 ^ j := by
    rw [hj, zpow_add₀ (by norm_num : (2 : ℚ) ≠ 0), zpow_natCast]
  have hdiv : (m : ℚ) * 2 ^ k / 2 ^ e = ((m * 2 ^ j : ℤ) : ℚ) := by
    rw [hk2]
    push_cast
    field_simp
    ring
  rw [hdiv, roundHalfEven_intCast, hk2]
  push_cast
  ring

theorem round_of_int_le (b k : ℤ) (hb : |b| ≤ 2 ^ 53) (hk : -1073 ≤ k) :
    Float64.round ((b : ℚ) * 2 ^ k) = (b : ℚ) * 2 ^ k := by
  rcases lt_or_eq_of_le hb with h | h
  · exact round_of_repr b k h (by omega)
  · have hb2 : b = 2 ^ 53 ∨ b = -(2 ^ 53) := by
      rcases abs_cases b with ⟨h1, _⟩ | ⟨h1, _⟩ <;> [left; right] <;> omega
    have key : (b : ℚ) * 2 ^ k = ((b / 2 : ℤ) : ℚ) * 2 ^ (k + 1) := by
      rw [zpow_add₀ (by norm_num : (2 : ℚ) ≠ 0)]
      rcases hb2 with rfl | rfl <;> norm_num <;> ring
    rw [key]
    apply round_of_repr _ _ _ (by omega)
    rcases hb2 with rfl | rfl <;> norm_num

theorem bandwidthToMBS_eq_round (b : ℤ) (hb : |b| ≤ 2 ^ 53) :
    bandwidthToMBS b = Float64.round ((b : ℚ) / 8 / 1000000) := by
  have h0 : Float64.round (b : ℚ) = b := by
    simpa using round_of_int_le b 0 hb (by norm_num)
  have h3 : Float64.round ((b : ℚ) / 8) = (b : ℚ) / 8 := by
    have := round_of_int_le b (-3) hb (by norm_num)
    have e : (b : ℚ) * 2 ^ (-3 : ℤ) = (b : ℚ) / 8 := by
      rw [zpow_neg]; norm_num; ring
    rwa [e] at this
  unfold bandwidthToMBS Float64.div Float64.ofInt
  rw [h0, h3]

theorem bandwidthToMBS_12345678 :
    bandwidthToMBS 12345678 = 6949998855054516 / 2 ^ 52 := by
  rw [bandwidthToMBS_eq_round _ (by norm_num)]
  have := round_eq_of_binade ((12345678 : ℤ) / 8 / 1000000) 0 6949998855054516 (by norm_num)
    (by norm_num [abs_of_pos]) (by norm_num [abs_of_pos])
    (roundHalfEven_eq_of_lt _ _ (by norm_num) (by norm_num))
  rw [this]
  norm_num

theorem bandwidthToMBS_sample :
    bandwidthToMBS 80000000 = 10 ∧ bandwidthToMBS 8000000 = 1 := by
  constructor
  · rw [bandwidthToMBS_eq_round _ (by norm_num)]
    have := round_of_repr 10 0 (by norm_num) (by norm_num)
    norm_num at this ⊢
    exact this
  · rw [bandwidthToMBS_eq_round _ (by norm_num)]
    have := round_of_repr 1 0 (by norm_num) (by norm_num)
    norm_num at this ⊢
    exact this

/-! ## The claims -/

/-- C3: a request without an Authorization header, or with an empty one, gets
status 401 with the plain-text message "Authorization header is required",
and no subprocess is started. -/
theorem missing_header_unauthorized (app : App) (env : HandlerEnv) (r : http.Request)
    (h : http.Header.Get r.Header "Authorization" = "") :
    (app.speedTestHandler env http.newResponseWriter r).w.status = some 401 ∧
    (app.speedTestHandler env http.newResponseWriter r).w.sentHeader "Content-Type"
      = "text/plain; charset=utf-8" ∧
    (app.speedTestHandler env http.newResponseWriter r).w.body
      = [http.Chunk.text "Authorization header is required\n"] ∧
    (app.speedTestHandler env http.newResponseWriter r).commands = [] := by
  have e : app.speedTestHandler env http.newResponseWriter r
      = { w := http.Error http.newResponseWriter "Authorization header is required"
            http.StatusUnauthorized } := by
    unfold App.speedTestHandler
    simp only [h, if_true]
  rw [e]
  obtain ⟨h1, h2, h3⟩ := error_fresh "Authorization header is required" http.StatusUnauthorized
  exact ⟨h1, h2, h3, rfl⟩

/-- Witness of C3: a request with no header at all, and one whose
Authorization header is empty. -/
theorem missing_header_unauthorized_witness :
    ((App.speedTestHandler { authToken := "secret" } toolSucceeds http.newResponseWriter
        { Header := [] }).w.status = some 401 ∧
      (App.speedTestHandler { authToken := "secret" } toolSucceeds http.newResponseWriter
        { Header := [] }).commands = []) ∧
    ((App.speedTestHandler { authToken := "secret" } toolSucceeds http.newResponseWriter
        (requestWithAuthorization "")).w.body
        = [http.Chunk.text "Authorization header is required\n"]) :=
  ⟨⟨(missing_header_unauthorized { authToken := "secret" } toolSucceeds { Header := [] } rfl).1,
      (missing_header_unauthorized { authToken := "secret" } toolSucceeds
        { Header := [] } rfl).2.2.2⟩,
    (missing_header_unauthorized { authToken := "secret" } toolSucceeds
      (requestWithAuthorization "") rfl).2.2.1⟩

/-- C2: a request whose Authorization header is "Bearer " followed by a
string other than the configured token gets status 401 and no subprocess is
started. -/
theorem mismatched_token_unauthorized (app : App) (env : HandlerEnv) (r : http.Request)
    (s : String) (hH : http.Header.Get r.Header "Authorization" = "Bearer " ++ s)
    (hs : s ≠ app.authToken) :
    (app.speedTestHandler env http.newResponseWriter r).w.status = some 401 ∧
    (app.speedTestHandler env http.newResponseWriter r).commands = [] := by
  have hrej : ¬ (http.Header.Get r.Header "Authorization" ≠ "" ∧
      (Split (http.Header.Get r.Header "Authorization") "Bearer ").length = 2 ∧
      (Split (http.Header.Get r.Header "Authorization") "Bearer ").getD 1 "" = app.authToken) := by
    rintro ⟨_, h2⟩
    rw [hH] at h2
    obtain ⟨m, hm, _, hd⟩ := (split_bearer_index_iff _ _).mp h2
    have hdata : ("Bearer " ++ s).data = ['B', 'e', 'a', 'r', 'e', 'r', ' '] ++ s.data := by
      simp [String.data_append]
    rw [hdata] at hm hd
    have h0 : m = 0 := by
      simp [indexChars, List.isPrefixOf] at hm
      exact hm.symm
    subst h0
    simp at hd
    exact hs (String.ext hd)
  obtain ⟨msg, _, e⟩ := handler_rejects app env http.newResponseWriter r hrej
  rw [e]
  exact ⟨(error_fresh msg http.StatusUnauthorized).1, rfl⟩

/-- Witness of C2: the token "secret" against the header "Bearer Secret". -/
theorem mismatched_token_unauthorized_witness :
    (App.speedTestHandler { authToken := "secret" } toolSucceeds http.newResponseWriter
        (requestWithAuthorization "Bearer Secret")).w.status = some 401 ∧
    (App.speedTestHandler { authToken := "secret" } toolSucceeds http.newResponseWriter
        (requestWithAuthorization "Bearer Secret")).commands = [] :=
  mismatched_token_unauthorized { authToken := "secret" } toolSucceeds
    (requestWithAuthorization "Bearer Secret") "Secret" rfl (by decide)

/-- C10: the handler starts the subprocess exactly when the Authorization
header ends with "Bearer " followed by the configured token and contains
"Bearer " exactly once. Hence "Bearer " followed by a token free of "Bearer "
is accepted, so is that header behind any text free of "Bearer ", and a token
that itself contains "Bearer " is accepted in no header. -/
theorem bearer_auth_characterisation (app : App) (env : HandlerEnv) (w : http.ResponseWriter)
    (r : http.Request) :
    ((app.speedTestHandler env w r).commands = [speedtestCommand] ↔
      ((∃ p : String, http.Header.Get r.Header "Authorization" = p ++ "Bearer " ++ app.authToken) ∧
        occurrences "Bearer " (http.Header.Get r.Header "Authorization") = 1)) ∧
    (occurrences "Bearer " app.authToken = 0 →
      http.Header.Get r.Header "Authorization" = "Bearer " ++ app.authToken →
      (app.speedTestHandler env w r).commands = [speedtestCommand]) ∧
    (∀ p : String, occurrences "Bearer " p = 0 → occurrences "Bearer " app.authToken = 0 →
      http.Header.Get r.Header "Authorization" = p ++ "Bearer " ++ app.authToken →
      (app.speedTestHandler env w r).commands = [speedtestCommand]) ∧
    (occurrences "Bearer " app.authToken ≠ 0 →
      (app.speedTestHandler env w r).commands ≠ [speedtestCommand]) := by
  have hiff : (app.speedTestHandler env w r).commands = [speedtestCommand] ↔
      ((∃ p : String, http.Header.Get r.Header "Authorization" = p ++ "Bearer " ++ app.authToken) ∧
        occurrences "Bearer " (http.Header.Get r.Header "Authorization") = 1) := by
    constructor
    · intro hc
      by_contra hn
      have hrej : ¬ (http.Header.Get r.Header "Authorization" ≠ "" ∧
          (Split (http.Header.Get r.Header "Authorization") "Bearer ").length = 2 ∧
          (Split (http.Header.Get r.Header "Authorization") "Bearer ").getD 1 ""
            = app.authToken) := fun h => hn ((split_bearer_iff _ _).mp h.2)
      obtain ⟨msg, _, e⟩ := handler_rejects app env w r hrej
      rw [e] at hc
      simp [speedtestCommand] at hc
    · intro h
      refine handler_accepts app env w r ⟨?_, (split_bearer_iff _ _).mpr h⟩
      intro h0
      rw [h0] at h
      exact absurd h.2 (by decide)
  have hfree : ∀ p : String, occurrences "Bearer " p = 0 → occurrences "Bearer " app.authToken = 0 →
      http.Header.Get r.Header "Authorization" = p ++ "Bearer " ++ app.authToken →
      (app.speedTestHandler env w r).commands = [speedtestCommand] := by
    intro p hp ht hH
    refine hiff.mpr ⟨⟨p, hH⟩, ?_⟩
    rw [hH]
    have hd : (p ++ "Bearer " ++ app.authToken).data
        = p.data ++ (['B', 'e', 'a', 'r', 'e', 'r', ' '] ++ app.authToken.data) := by
      simp [String.data_append]
    unfold occurrences at hp ht ⊢
    rw [hd]
    rw [show ("Bearer " : String).data = ['B', 'e', 'a', 'r', 'e', 'r', ' '] from rfl] at hp ht ⊢
    rw [occurrencesChars_free_front _ _ hp, occurrencesChars_bearer_append, ht]
  refine ⟨hiff, ?_, hfree, ?_⟩
  · intro ht hH
    exact hfree "" (by decide) ht (by rw [hH]; rfl)
  · intro ht hc
    obtain ⟨⟨p, hp⟩, hocc⟩ := hiff.mp hc
    rw [hp] at hocc
    have hd : (p ++ "Bearer " ++ app.authToken).data
        = p.data ++ (['B', 'e', 'a', 'r', 'e', 'r', ' '] ++ app.authToken.data) := by
      simp [String.data_append]
    unfold occurrences at ht hocc
    rw [hd] at hocc
    rw [show ("Bearer " : String).data = ['B', 'e', 'a', 'r', 'e', 'r', ' '] from rfl] at ht hocc
    have hge := occurrencesChars_append_ge ['B', 'e', 'a', 'r', 'e', 'r', ' '] p.data
      (['B', 'e', 'a', 'r', 'e', 'r', ' '] ++ app.authToken.data)
    rw [occurrencesChars_bearer_append] at hge
    omega

/-- Witness of C10: with the token "secret", the headers "Bearer secret" and
"Token Bearer secret" start the subprocess; with the token "Bearer x" the
header "Bearer Bearer x" does not. -/
theorem bearer_auth_characterisation_witness :
    (App.speedTestHandler { authToken := "secret" } toolSucceeds http.newResponseWriter
        (requestWithAuthorization "Bearer secret")).commands = [speedtestCommand] ∧
    (App.speedTestHandler { authToken := "secret" } toolSucceeds http.newResponseWriter
        (requestWithAuthorization "Token Bearer secret")).commands = [speedtestCommand] ∧
    (App.speedTestHandler { authToken := "Bearer x" } toolSucceeds http.newResponseWriter
        (requestWithAuthorization "Bearer Bearer x")).commands ≠ [speedtestCommand] :=
  ⟨(bearer_auth_characterisation { authToken := "secret" } toolSucceeds http.newResponseWriter
      (requestWithAuthorization "Bearer secret")).2.1 (by decide) rfl,
    (bearer_auth_characterisation { authToken := "secret" } toolSucceeds http.newResponseWriter
      (requestWithAuthorization "Token Bearer secret")).2.2.1 "Token " (by decide) (by decide) rfl,
    (bearer_auth_characterisation { authToken := "Bearer x" } toolSucceeds http.newResponseWriter
      (requestWithAuthorization "Bearer Bearer x")).2.2.2 (by decide)⟩

/-- C1, as amended: a request whose Authorization header does not end with
"Bearer " followed by the configured token, or does not contain "Bearer "
exactly once, gets status 401 with one of the three plain-text messages, and
no subprocess is started. -/
theorem malformed_header_unauthorized (app : App) (env : HandlerEnv) (r : http.Request)
    (h : ¬ ((∃ p : String,
        http.Header.Get r.Header "Authorization" = p ++ "Bearer " ++ app.authToken) ∧
      occurrences "Bearer " (http.Header.Get r.Header "Authorization") = 1)) :
    (app.speedTestHandler env http.newResponseWriter r).w.status = some 401 ∧
    (app.speedTestHandler env http.newResponseWriter r).w.sentHeader "Content-Type"
      = "text/plain; charset=utf-8" ∧
    (∃ msg, msg ∈ ["Authorization header is required", "Invalid Authorization header format",
        "Invalid token"] ∧
      (app.speedTestHandler env http.newResponseWriter r).w.body
        = [http.Chunk.text (msg ++ "\n")]) ∧
    (app.speedTestHandler env http.newResponseWriter r).commands = [] := by
  have hrej : ¬ (http.Header.Get r.Header "Authorization" ≠ "" ∧
      (Split (http.Header.Get r.Header "Authorization") "Bearer ").length = 2 ∧
      (Split (http.Header.Get r.Header "Authorization") "Bearer ").getD 1 ""
        = app.authToken) := fun hh => h ((split_bearer_iff _ _).mp hh.2)
  obtain ⟨msg, hmem, e⟩ := handler_rejects app env http.newResponseWriter r hrej
  rw [e]
  obtain ⟨h1, h2, h3⟩ := error_fresh msg http.StatusUnauthorized
  exact ⟨h1, h2, ⟨msg, hmem, h3⟩, rfl⟩

/-- Witness of C1 as amended: the header "Basic secret" holds no "Bearer ". -/
theorem malformed_header_unauthorized_witness :
    (App.speedTestHandler { authToken := "secret" } toolSucceeds http.newResponseWriter
        (requestWithAuthorization "Basic secret")).w.status = some 401 ∧
    (App.speedTestHandler { authToken := "secret" } toolSucceeds http.newResponseWriter
        (requestWithAuthorization "Basic secret")).commands = [] :=
  ⟨(malformed_header_unauthorized { authToken := "secret" } toolSucceeds
      (requestWithAuthorization "Basic secret") (fun h => absurd h.2 (by decide))).1,
    (malformed_header_unauthorized { authToken := "secret" } toolSucceeds
      (requestWithAuthorization "Basic secret") (fun h => absurd h.2 (by decide))).2.2.2⟩

/-- Counterexample to C1 as stated: with the configured token "a b", the
header "Bearer a b" is not "Bearer " followed by one space-free segment, yet
the handler starts the subprocess and the status is not 401. -/
theorem spaced_token_accepted :
    isBearerSingleToken "Bearer a b" = false ∧
    (App.speedTestHandler { authToken := "a b" } toolFails http.newResponseWriter
        (requestWithAuthorization "Bearer a b")).commands = [speedtestCommand] ∧
    (App.speedTestHandler { authToken := "a b" } toolFails http.newResponseWriter
        (requestWithAuthorization "Bearer a b")).w.status = some 500 := by
  decide

/-- C4: for an authenticated request, when the tool exits successfully and
its output parses to a report, the response has status 200, content type
JSON and the body is the encoded AgentResponse holding
`float64(d) / 8 / 1e6`, `float64(u) / 8 / 1e6`, the latency, the country and
the host of the report and no error; for the report of the specification's
example the numbers are 10, 1 and 15.5. -/
theorem success_response (app : App) (env : HandlerEnv) (r : http.Request)
    (cli : SpeedtestCliOutput)
    (hauth : (∃ p : String,
        http.Header.Get r.Header "Authorization" = p ++ "Bearer " ++ app.authToken) ∧
      occurrences "Bearer " (http.Header.Get r.Header "Authorization") = 1)
    (hrun : (env.combinedOutput speedtestCommand).2 = none)
    (hparse : env.unmarshal (env.combinedOutput speedtestCommand).1 = Except.ok cli) :
    (app.speedTestHandler env http.newResponseWriter r).w.status = some 200 ∧
    (app.speedTestHandler env http.newResponseWriter r).w.sentHeader "Content-Type"
      = "application/json" ∧
    (app.speedTestHandler env http.newResponseWriter r).w.body =
      [http.Chunk.json (AgentResponse.marshal
        { DownloadSpeedMBS :=
            Float64.div (Float64.div (Float64.ofInt cli.Download.Bandwidth) 8) 1000000
          UploadSpeedMBS :=
            Float64.div (Float64.div (Float64.ofInt cli.Upload.Bandwidth) 8) 1000000
          LatencyMs := cli.Ping.Latency
          ServerCountry := cli.Server.Country
          ServerHost := cli.Server.Host
          Error := "" })] ∧
    (app.speedTestHandler env http.newResponseWriter r).w.body =
      [http.Chunk.json
        [("download_speed_MB_s", JSONValue.number
            (Float64.div (Float64.div (Float64.ofInt cli.Download.Bandwidth) 8) 1000000)),
         ("upload_speed_MB_s", JSONValue.number
            (Float64.div (Float64.div (Float64.ofInt cli.Upload.Bandwidth) 8) 1000000)),
         ("latency_ms", JSONValue.number cli.Ping.Latency),
         ("server_country", JSONValue.string cli.Server.Country),
         ("server_host", JSONValue.string cli.Server.Host)]] ∧
    (cli.Download.Bandwidth = 80000000 → cli.Upload.Bandwidth = 8000000 →
      cli.Ping.Latency = 31 / 2 → cli.Server.Host = "h" → cli.Server.Country = "US" →
      (app.speedTestHandler env http.newResponseWriter r).w.body =
        [http.Chunk.json
          [("download_speed_MB_s", JSONValue.number 10),
           ("upload_speed_MB_s", JSONValue.number 1),
           ("latency_ms", JSONValue.number (31 / 2)),
           ("server_country", JSONValue.string "US"),
           ("server_host", JSONValue.string "h")]]) := by
  have e := handler_of_accept app env http.newResponseWriter r (accept_of_bearer _ _ hauth)
  rw [hrun] at e
  simp only [hparse] at e
  rw [e]
  simp only []
  obtain ⟨h1, h2, h3⟩ := encode_first_write
    { DownloadSpeedMBS := bandwidthToMBS cli.Download.Bandwidth
      UploadSpeedMBS := bandwidthToMBS cli.Upload.Bandwidth
      LatencyMs := cli.Ping.Latency
      ServerCountry := cli.Server.Country
      ServerHost := cli.Server.Host }
  refine ⟨h1, h2, h3, ?_, ?_⟩
  · rw [h3, marshal_success]
    rfl
  · intro hd hu hl hh hc
    rw [h3, marshal_success, hd, hu, hl, hh, hc, bandwidthToMBS_sample.1, bandwidthToMBS_sample.2]

/-- Witness of C4: the token "secret", the header "Bearer secret" and the
tool output of the specification's example. -/
theorem success_response_witness :
    (App.speedTestHandler { authToken := "secret" } toolSucceeds http.newResponseWriter
        (requestWithAuthorization "Bearer secret")).w.status = some 200 ∧
    (App.speedTestHandler { authToken := "secret" } toolSucceeds http.newResponseWriter
        (requestWithAuthorization "Bearer secret")).w.body =
      [http.Chunk.json
        [("download_speed_MB_s", JSONValue.number 10),
         ("upload_speed_MB_s", JSONValue.number 1),
         ("latency_ms", JSONValue.number (31 / 2)),
         ("server_country", JSONValue.string "US"),
         ("server_host", JSONValue.string "h")]] :=
  ⟨(success_response { authToken := "secret" } toolSucceeds
      (requestWithAuthorization "Bearer secret") sampleReport
      ⟨⟨"", rfl⟩, by decide⟩ rfl rfl).1,
    (success_response { authToken := "secret" } toolSucceeds
      (requestWithAuthorization "Bearer secret") sampleReport
      ⟨⟨"", rfl⟩, by decide⟩ rfl rfl).2.2.2.2 rfl rfl rfl rfl rfl⟩

/-- C5: for an authenticated request, a subprocess that cannot be started or
exits non-zero gives status 500 and a JSON body whose error member is
"Failed to execute speedtest-cli: " followed by the failure text; a subprocess
that succeeds with output that does not parse gives status 500 and a JSON body
whose error member is "Failed to parse speedtest-cli output: " followed by the
parse error text. -/
theorem tool_failure_responses (app : App) (env : HandlerEnv) (r : http.Request)
    (hauth : (∃ p : String,
        http.Header.Get r.Header "Authorization" = p ++ "Bearer " ++ app.authToken) ∧
      occurrences "Bearer " (http.Header.Get r.Header "Authorization") = 1) :
    (∀ err : GoError, (env.combinedOutput speedtestCommand).2 = some err →
      (app.speedTestHandler env http.newResponseWriter r).w.status = some 500 ∧
      (app.speedTestHandler env http.newResponseWriter r).w.sentHeader "Content-Type"
        = "application/json" ∧
      ∃ o : JSONObject,
        (app.speedTestHandler env http.newResponseWriter r).w.body = [http.Chunk.json o] ∧
        o.get "error"
          = some (JSONValue.string ("Failed to execute speedtest-cli: " ++ err.Error))) ∧
    (∀ err : GoError, (env.combinedOutput speedtestCommand).2 = none →
      env.unmarshal (env.combinedOutput speedtestCommand).1 = Except.error err →
      (app.speedTestHandler env http.newResponseWriter r).w.status = some 500 ∧
      (app.speedTestHandler env http.newResponseWriter r).w.sentHeader "Content-Type"
        = "application/json" ∧
      ∃ o : JSONObject,
        (app.speedTestHandler env http.newResponseWriter r).w.body = [http.Chunk.json o] ∧
        o.get "error"
          = some (JSONValue.string ("Failed to parse speedtest-cli output: " ++ err.Error))) := by
  have e := handler_of_accept app env http.newResponseWriter r (accept_of_bearer _ _ hauth)
  constructor
  · intro err hrun
    rw [hrun] at e
    rw [e]
    simp only []
    obtain ⟨h1, h2, h3⟩ := encode_after_status
      { Error := "Failed to execute speedtest-cli: " ++ err.Error } 500
    refine ⟨h1, h2, _, h3, ?_⟩
    rw [marshal_error _ (append_ne_empty _ _ (by decide))]
    rfl
  · intro err hrun hparse
    rw [hrun] at e
    simp only [hparse] at e
    rw [e]
    simp only []
    obtain ⟨h1, h2, h3⟩ := encode_after_status
      { Error := "Failed to parse speedtest-cli output: " ++ err.Error } 500
    refine ⟨h1, h2, _, h3, ?_⟩
    rw [marshal_error _ (append_ne_empty _ _ (by decide))]
    rfl

/-- Witness of C5: the token "secret", the header "Bearer secret", and a tool
that exits with status 1, then a tool that prints nothing. -/
theorem tool_failure_responses_witness :
    (App.speedTestHandler { authToken := "secret" } toolFails http.newResponseWriter
        (requestWithAuthorization "Bearer secret")).w.status = some 500 ∧
    (App.speedTestHandler { authToken := "secret" } toolPrintsNothing http.newResponseWriter
        (requestWithAuthorization "Bearer secret")).w.status = some 500 :=
  ⟨((tool_failure_responses { authToken := "secret" } toolFails
      (requestWithAuthorization "Bearer secret") ⟨⟨"", rfl⟩, by decide⟩).1
        { Error := "exit status 1" } rfl).1,
    ((tool_failure_responses { authToken := "secret" } toolPrintsNothing
      (requestWithAuthorization "Bearer secret") ⟨⟨"", rfl⟩, by decide⟩).2
        { Error := "unexpected end of JSON input" } rfl rfl).1⟩

/-- C7, as amended: every response of the handler with status 500 has a JSON
body with all six members: the five measurement members at their zero values
and the error member with a non-empty message. -/
theorem error_response_body (app : App) (env : HandlerEnv) (r : http.Request)
    (h500 : (app.speedTestHandler env http.newResponseWriter r).w.status = some 500) :
    ∃ msg : String, msg ≠ "" ∧
      (app.speedTestHandler env http.newResponseWriter r).w.body =
        [http.Chunk.json
          [("download_speed_MB_s", JSONValue.number 0),
           ("upload_speed_MB_s", JSONValue.number 0),
           ("latency_ms", JSONValue.number 0),
           ("server_country", JSONValue.string ""),
           ("server_host", JSONValue.string ""),
           ("error", JSONValue.string msg)]] ∧
      ((∃ err : GoError, msg = "Failed to execute speedtest-cli: " ++ err.Error) ∨
        (∃ err : GoError, msg = "Failed to parse speedtest-cli output: " ++ err.Error)) := by
  by_cases hacc : http.Header.Get r.Header "Authorization" ≠ "" ∧
      (Split (http.Header.Get r.Header "Authorization") "Bearer ").length = 2 ∧
      (Split (http.Header.Get r.Header "Authorization") "Bearer ").getD 1 "" = app.authToken
  · have e := handler_of_accept app env http.newResponseWriter r hacc
    cases hrun : (env.combinedOutput speedtestCommand).2 with
    | some err =>
      rw [hrun] at e
      refine ⟨"Failed to execute speedtest-cli: " ++ err.Error,
        append_ne_empty _ _ (by decide), ?_, Or.inl ⟨err, rfl⟩⟩
      rw [e]
      simp only []
      rw [(encode_after_status _ 500).2.2, marshal_error _ (append_ne_empty _ _ (by decide))]
    | none =>
      rw [hrun] at e
      cases hparse : env.unmarshal (env.combinedOutput speedtestCommand).1 with
      | error err =>
        simp only [hparse] at e
        refine ⟨"Failed to parse speedtest-cli output: " ++ err.Error,
          append_ne_empty _ _ (by decide), ?_, Or.inr ⟨err, rfl⟩⟩
        rw [e]
        simp only []
        rw [(encode_after_status _ 500).2.2, marshal_error _ (append_ne_empty _ _ (by decide))]
      | ok cli =>
        simp only [hparse] at e
        rw [e] at h500
        simp only [] at h500
        rw [(encode_first_write _).1] at h500
        exact absurd h500 (by decide)
  · obtain ⟨msg, _, e⟩ := handler_rejects app env http.newResponseWriter r hacc
    rw [e] at h500
    have h401 : (http.Error http.newResponseWriter msg http.StatusUnauthorized).status
        = some 401 := (error_fresh msg http.StatusUnauthorized).1
    simp only [] at h500
    rw [h401] at h500
    exact absurd h500 (by decide)

/-- Witness of C7 as amended: the token "secret", the header "Bearer secret"
and a tool that exits with status 1. -/
theorem error_response_body_witness :
    ∃ msg : String, msg ≠ "" ∧
      (App.speedTestHandler { authToken := "secret" } toolFails http.newResponseWriter
          (requestWithAuthorization "Bearer secret")).w.body =
        [http.Chunk.json
          [("download_speed_MB_s", JSONValue.number 0),
           ("upload_speed_MB_s", JSONValue.number 0),
           ("latency_ms", JSONValue.number 0),
           ("server_country", JSONValue.string ""),
           ("server_host", JSONValue.string ""),
           ("error", JSONValue.string msg)]] ∧
      ((∃ err : GoError, msg = "Failed to execute speedtest-cli: " ++ err.Error) ∨
        (∃ err : GoError, msg = "Failed to parse speedtest-cli output: " ++ err.Error)) :=
  error_response_body { authToken := "secret" } toolFails
    (requestWithAuthorization "Bearer secret") (by decide)

/-- Counterexample to C7 as stated: when the tool exits with status 1 the
response has status 500 and its JSON body has six members, the measurement
members among them, not the error member alone. -/
theorem error_body_keeps_measurement_members :
    (App.speedTestHandler { authToken := "secret" } toolFails http.newResponseWriter
        (requestWithAuthorization "Bearer secret")).w.status = some 500 ∧
    (App.speedTestHandler { authToken := "secret" } toolFails http.newResponseWriter
        (requestWithAuthorization "Bearer secret")).w.body =
      [http.Chunk.json
        [("download_speed_MB_s", JSONValue.number 0),
         ("upload_speed_MB_s", JSONValue.number 0),
         ("latency_ms", JSONValue.number 0),
         ("server_country", JSONValue.string ""),
         ("server_host", JSONValue.string ""),
         ("error", JSONValue.string "Failed to execute speedtest-cli: exit status 1")]] ∧
    JSONObject.keys
        [("download_speed_MB_s", JSONValue.number 0),
         ("upload_speed_MB_s", JSONValue.number 0),
         ("latency_ms", JSONValue.number 0),
         ("server_country", JSONValue.string ""),
         ("server_host", JSONValue.string ""),
         ("error", JSONValue.string "Failed to execute speedtest-cli: exit status 1")]
      ≠ ["error"] := by
  decide

/-- C6, the code at the failing input: for a configuration file whose
`auth_token` is empty and a logger that writes its line, `loadConfig` returns
a nil configuration together with a nil error, and `main` goes on to
dereference the nil configuration. -/
theorem loadConfig_empty_token_nil_error :
    loadConfig (startupWith { AuthToken := "", Port := 8080 }) "/etc/speedtest-agent/config.json"
      = (none, none) ∧
    main (startupWith { AuthToken := "", Port := 8080 }) = Startup.nilDereference := by
  decide

/-- C9: when the file opens and decodes to a configuration with a non-empty
token `t` and port `p`, `loadConfig` returns exactly that configuration and a
nil error, `main` serves on `:p` with an App holding `t`, and that App's
handler starts the subprocess exactly when the header is non-empty, splits at
"Bearer " in two parts and the second part equals `t`. -/
theorem loadConfig_verbatim (env : StartupEnv) (path file t : String) (p : Int)
    (hopen : env.openFile path = Except.ok file)
    (hdecode : env.decode file = Except.ok { AuthToken := t, Port := p })
    (ht : t ≠ "") :
    loadConfig env path = (some { AuthToken := t, Port := p }, none) ∧
    (env.configFlag.getD "/etc/speedtest-agent/config.json" = path →
      main env =
        match env.listenAndServe (":" ++ toString p) with
        | some err => Startup.serverFatal { authToken := t } (":" ++ toString p) err
        | none => Startup.serving { authToken := t } (":" ++ toString p)) ∧
    (∀ (henv : HandlerEnv) (w : http.ResponseWriter) (r : http.Request),
      (App.speedTestHandler { authToken := t } henv w r).commands = [speedtestCommand] ↔
        (http.Header.Get r.Header "Authorization" ≠ "" ∧
          (Split (http.Header.Get r.Header "Authorization") "Bearer ").length = 2 ∧
          (Split (http.Header.Get r.Header "Authorization") "Bearer ").getD 1 "" = t)) := by
  have hload : loadConfig env path = (some { AuthToken := t, Port := p }, none) := by
    unfold loadConfig
    rw [hopen]
    simp only [hdecode, if_neg ht]
  refine ⟨hload, ?_, ?_⟩
  · intro hpath
    unfold main
    simp only [hpath, hload]
  · intro henv w r
    constructor
    · intro hc
      by_contra hn
      obtain ⟨msg, _, e⟩ := handler_rejects { authToken := t } henv w r hn
      rw [e] at hc
      simp [speedtestCommand] at hc
    · exact handler_accepts { authToken := t } henv w r

/-- Witness of C9: the default path, the token "secret" and the port 8080. -/
theorem loadConfig_verbatim_witness :
    loadConfig (startupWith { AuthToken := "secret", Port := 8080 })
        "/etc/speedtest-agent/config.json"
      = (some { AuthToken := "secret", Port := 8080 }, none) ∧
    main (startupWith { AuthToken := "secret", Port := 8080 })
      = Startup.serving { authToken := "secret" } ":8080" :=
  ⟨(loadConfig_verbatim (startupWith { AuthToken := "secret", Port := 8080 })
      "/etc/speedtest-agent/config.json" "config" "secret" 8080 rfl rfl (by decide)).1,
    (loadConfig_verbatim (startupWith { AuthToken := "secret", Port := 8080 })
      "/etc/speedtest-agent/config.json" "config" "secret" 8080 rfl rfl (by decide)).2.1 rfl⟩

/-- C8, as amended: the handler converts the download and the upload bandwidth
by `float64(b) / 8 / 1e6` in binary64 arithmetic; for `|b| ≤ 2^53` the result
is the binary64 value nearest to the exact rational `b / 8 / 1000000`; for
12345678 that rational is 1.54320975 and the result is the binary64 value
nearest to it, less than `2^-53` away. -/
theorem bandwidth_conversion (b : ℤ) :
    bandwidthToMBS b = Float64.div (Float64.div (Float64.ofInt b) 8) 1000000 ∧
    (|b| ≤ 2 ^ 53 → bandwidthToMBS b = Float64.round ((b : ℚ) / 8 / 1000000)) ∧
    (∀ (app : App) (env : HandlerEnv) (r : http.Request) (cli : SpeedtestCliOutput),
      ((∃ p : String,
          http.Header.Get r.Header "Authorization" = p ++ "Bearer " ++ app.authToken) ∧
        occurrences "Bearer " (http.Header.Get r.Header "Authorization") = 1) →
      (env.combinedOutput speedtestCommand).2 = none →
      env.unmarshal (env.combinedOutput speedtestCommand).1 = Except.ok cli →
      (app.speedTestHandler env http.newResponseWriter r).w.body =
        [http.Chunk.json
          [("download_speed_MB_s", JSONValue.number (bandwidthToMBS cli.Download.Bandwidth)),
           ("upload_speed_MB_s", JSONValue.number (bandwidthToMBS cli.Upload.Bandwidth)),
           ("latency_ms", JSONValue.number cli.Ping.Latency),
           ("server_country", JSONValue.string cli.Server.Country),
           ("server_host", JSONValue.string cli.Server.Host)]]) ∧
    (b = 12345678 →
      (b : ℚ) / 8 / 1000000 = 154320975 / 100000000 ∧
      bandwidthToMBS b = Float64.round (154320975 / 100000000) ∧
      bandwidthToMBS b = 6949998855054516 / 2 ^ 52 ∧
      |bandwidthToMBS b - 154320975 / 100000000| < 1 / 2 ^ 53) := by
  refine ⟨rfl, bandwidthToMBS_eq_round b, ?_, ?_⟩
  · intro app env r cli hauth hrun hparse
    have e := handler_of_accept app env http.newResponseWriter r (accept_of_bearer _ _ hauth)
    rw [hrun] at e
    simp only [hparse] at e
    rw [e]
    simp only []
    rw [(encode_first_write _).2.2, marshal_success]
  · rintro rfl
    refine ⟨by norm_num, ?_, bandwidthToMBS_12345678, ?_⟩
    · rw [bandwidthToMBS_eq_round _ (by norm_num)]
      norm_num
    · rw [bandwidthToMBS_12345678]
      norm_num [abs_lt]

/-- Witness of C8 as amended: the bandwidths 80000000 and 12345678. -/
theorem bandwidth_conversion_witness :
    bandwidthToMBS 80000000 = Float64.round ((80000000 : ℤ) / 8 / 1000000) ∧
    bandwidthToMBS 12345678 = 6949998855054516 / 2 ^ 52 :=
  ⟨(bandwidth_conversion 80000000).2.1 (by decide),
    ((bandwidth_conversion 12345678).2.2.2 rfl).2.2.1⟩

/-- Counterexample to C8 as stated: for 12345678 the handler's conversion does
not yield 1.543209375, the exact quotient 12345678 / 8 / 1000000 is not
1.543209375 either, and the binary64 result differs from the exact quotient. -/
theorem conversion_of_12345678 :
    bandwidthToMBS 12345678 ≠ 1543209375 / 1000000000 ∧
    ((12345678 : ℤ) : ℚ) / 8 / 1000000 ≠ 1543209375 / 1000000000 ∧
    bandwidthToMBS 12345678 ≠ ((12345678 : ℤ) : ℚ) / 8 / 1000000 := by
  rw [bandwidthToMBS_12345678]
  norm_num

/-! ## Further properties -/

/-- Joining the pieces of `strings.Split(s, sep)` with `sep` gives `s` back. -/
theorem split_join (s sep : String) (hsep : sep ≠ "") :
    List.intercalate sep.data ((Split s sep).map String.data) = s.data := by
  have hne : sep.data ≠ [] := fun h => hsep (String.ext h)
  simp only [Split, hne, if_false, List.map_map]
  have : (String.data ∘ String.mk) = id := by
    funext l; rfl
  rw [this, List.map_id]
  exact intercalate_splitLoop _ _ _

/-- The handler starts at most one subprocess, always with the same fixed
command line, and exactly on the responses that are not 401; the status is
200, 401 or 500. -/
theorem handler_outcomes (app : App) (env : HandlerEnv) (r : http.Request) :
    ((app.speedTestHandler env http.newResponseWriter r).w.status = some 401 ∧
      (app.speedTestHandler env http.newResponseWriter r).commands = []) ∨
    (((app.speedTestHandler env http.newResponseWriter r).w.status = some 200 ∨
        (app.speedTestHandler env http.newResponseWriter r).w.status = some 500) ∧
      (app.speedTestHandler env http.newResponseWriter r).commands = [speedtestCommand]) := by
  by_cases hacc : http.Header.Get r.Header "Authorization" ≠ "" ∧
      (Split (http.Header.Get r.Header "Authorization") "Bearer ").length = 2 ∧
      (Split (http.Header.Get r.Header "Authorization") "Bearer ").getD 1 "" = app.authToken
  · right
    refine ⟨?_, handler_accepts app env _ r hacc⟩
    have e := handler_of_accept app env http.newResponseWriter r hacc
    cases hrun : (env.combinedOutput speedtestCommand).2 with
    | some err =>
      rw [hrun] at e
      rw [e]
      exact Or.inr (encode_after_status _ 500).1
    | none =>
      rw [hrun] at e
      cases hparse : env.unmarshal (env.combinedOutput speedtestCommand).1 with
      | error err =>
        simp only [hparse] at e
        rw [e]
        exact Or.inr (encode_after_status _ 500).1
      | ok cli =>
        simp only [hparse] at e
        rw [e]
        exact Or.inl (encode_first_write _).1
  · left
    obtain ⟨msg, _, e⟩ := handler_rejects app env http.newResponseWriter r hacc
    rw [e]
    exact ⟨(error_fresh msg http.StatusUnauthorized).1, rfl⟩

/-- The configuration `loadConfig` returns, when it returns one, has a
non-empty token and comes with a nil error. -/
theorem loadConfig_some (env : StartupEnv) (path : String) (config : AgentConfig)
    (h : (loadConfig env path).1 = some config) :
    config.AuthToken ≠ "" ∧ (loadConfig env path).2 = none := by
  unfold loadConfig at h ⊢
  cases hopen : env.openFile path with
  | error err => rw [hopen] at h; simp at h
  | ok file =>
    rw [hopen] at h
    simp only [] at h ⊢
    cases hdec : env.decode file with
    | error err => rw [hdec] at h; simp at h
    | ok c =>
      rw [hdec] at h
      simp only [] at h ⊢
      by_cases ht : c.AuthToken = ""
      · rw [if_pos ht] at h; simp at h
      · rw [if_neg ht] at h ⊢
        simp only [Option.some.injEq] at h
        subst h
        exact ⟨ht, rfl⟩

theorem loadConfig_some_witness :
    ({ AuthToken := "secret", Port := 8080 } : AgentConfig).AuthToken ≠ "" ∧
    (loadConfig (startupWith { AuthToken := "secret", Port := 8080 })
      "/etc/speedtest-agent/config.json").2 = none :=
  loadConfig_some (startupWith { AuthToken := "secret", Port := 8080 })
    "/etc/speedtest-agent/config.json" { AuthToken := "secret", Port := 8080 } rfl

end SpeedtestAgent
